import Mathlib

/-!
Formal model of the context-optimization pipeline of the
`LLM-context-expansion` library: token counting (`src/tokenizer.ts`),
the cosine-similarity kernel (`src/embeddings.ts`), semantic and
text-based deduplication (`src/dedupe.ts`, `src/chatDedupe.ts`),
prioritization (`src/prioritizer.ts`, `src/chatPrioritizer.ts`),
budget trimming and the two pipeline orchestrators
(`src/optimizer.ts`, `src/chatOptimizer.ts`).

Modelling conventions:
* JavaScript numbers are modelled as `ℤ` (timestamps, token budgets)
  and `ℚ` (similarity scores, thresholds, weights).  `Math.sqrt` is not
  rational, so the model is parameterized by an arbitrary square-root
  stand-in `sqrtQ : ℚ → ℚ`; no theorem below depends on its behaviour.
* `async` functions that can reject are modelled as `Except`-valued
  functions; a function whose body catches every rejection is `.ok` on
  every input, mirroring the source.
* The embedding gateway (`EmbeddingProvider.getEmbeddings`) is an
  external collaborator; it is modelled as an arbitrary function
  `Provider` from the ordered batch of texts to either an error or a
  list of embedding vectors.
* `Array.prototype.sort` with a numeric comparator is modelled as a
  stable descending insertion sort (`sortDescBy`), which matches the
  comparator contract plus the stability guarantee of modern engines.
* `String.prototype.trim`/`toLowerCase` are modelled character-wise
  (`jsTrim`, `jsToLower`).
-/

namespace PromptOpt

/-! ## Tokenizer (`src/tokenizer.ts`)

`countTokens` returns 0 for a falsy (empty) string, otherwise
`Math.ceil(Math.ceil(text.length / 4) * 1.1)`.  Both ceilings are
expressed with natural-number arithmetic:
`⌈n / 4⌉ = (n + 3) / 4` and `⌈m * 11 / 10⌉ = (11 * m + 9) / 10`. -/
def countTokens (text : String) : ℕ :=
  if text = "" then 0
  else (11 * ((text.length + 3) / 4) + 9) / 10

/-! ## Similarity kernel (`src/embeddings.ts`) -/

/-- An embedding vector, as returned by the gateway. -/
abbrev Emb := List ℚ

/-- Dot product of two vectors (`dotProduct` accumulator loop in
`cosineSimilarity`).  `zipWith` mirrors the loop running over the
common indices. -/
def dotProduct (a b : Emb) : ℚ := (List.zipWith (· * ·) a b).sum

/-- `cosineSimilarity(a, b)` from `src/embeddings.ts`: returns 0 when
either norm is zero, otherwise the dot product over the product of the
norms.  `sqrtQ` stands in for `Math.sqrt`.  (The source throws on a
length mismatch; inside the pipeline both vectors always come from one
batch, and no theorem below is about the mismatch branch.) -/
def cosineSimilarity (sqrtQ : ℚ → ℚ) (a b : Emb) : ℚ :=
  let normA := sqrtQ (dotProduct a a)
  let normB := sqrtQ (dotProduct b b)
  if normA = 0 ∨ normB = 0 then 0
  else dotProduct a b / (normA * normB)

theorem dotProduct_comm (a b : Emb) : dotProduct a b = dotProduct b a := by
  unfold dotProduct
  rw [List.zipWith_comm_of_comm (· * ·) mul_comm]

theorem cosineSimilarity_comm (sqrtQ : ℚ → ℚ) (a b : Emb) :
    cosineSimilarity sqrtQ a b = cosineSimilarity sqrtQ b a := by
  unfold cosineSimilarity
  rcases Decidable.em (sqrtQ (dotProduct a a) = 0 ∨ sqrtQ (dotProduct b b) = 0) with h | h
  · rw [if_pos h, if_pos (Or.symm h)]
  · rw [if_neg h, if_neg (fun hc => h (Or.symm hc)), dotProduct_comm a b,
      mul_comm (sqrtQ (dotProduct b b))]

/-! ## The embedding gateway -/

/-- The gateway contract: an ordered batch of texts goes in, either an
error (a rejected promise, carrying its message) or a same-order batch
of embedding vectors comes out. -/
abbrev Provider := List String → Except String (List Emb)

/-- Error taxonomy of the pipeline.  Each constructor corresponds to a
`throw new Error(...)` in the source: `emptyQuery` to "User prompt is
required", `invalidBudget` to "maxTokens must be positive",
`embeddingUnavailable` to "Failed to create embedding provider...",
`providerRequired` to "Embedding provider is required for semantic
deduplication/prioritization...", and `gateway` to a rejection coming
out of the embedding gateway itself. -/
inductive OptError where
  | emptyQuery
  | invalidBudget
  | embeddingUnavailable
  | providerRequired
  | gateway (msg : String)
deriving DecidableEq

/-! ## Stable descending sort

`array.sort((a, b) => keyOf(b) - keyOf(a))` sorts descending by key and
(in every modern engine, and per the ES2019 contract) is stable.  The
model is a stable insertion sort: each element is inserted after every
already-placed element of greater-or-equal key. -/

def insertDescBy {α β : Type} [LinearOrder β] (key : α → β) (a : α) :
    List α → List α
  | [] => [a]
  | x :: xs => if key x < key a then a :: x :: xs else x :: insertDescBy key a xs

def sortDescBy {α β : Type} [LinearOrder β] (key : α → β) (l : List α) : List α :=
  l.foldl (fun acc a => insertDescBy key a acc) []

theorem insertDescBy_perm {α β : Type} [LinearOrder β] (key : α → β) (a : α)
    (l : List α) : (insertDescBy key a l).Perm (a :: l) := by
  induction l with
  | nil => exact List.Perm.refl _
  | cons x xs ih =>
    unfold insertDescBy
    by_cases h : key x < key a
    · rw [if_pos h]
    · rw [if_neg h]
      exact ((ih.cons x).trans (List.Perm.swap a x xs))

theorem sortDescBy_foldl_perm {α β : Type} [LinearOrder β] (key : α → β)
    (l acc : List α) :
    (l.foldl (fun acc a => insertDescBy key a acc) acc).Perm (acc ++ l) := by
  induction l generalizing acc with
  | nil => simp
  | cons a rest ih =>
    have h1 : (List.foldl (fun acc a => insertDescBy key a acc)
        (insertDescBy key a acc) rest).Perm (insertDescBy key a acc ++ rest) := ih _
    have h2 : (insertDescBy key a acc ++ rest).Perm ((a :: acc) ++ rest) :=
      (insertDescBy_perm key a acc).append_right rest
    have h3 : ((a :: acc) ++ rest).Perm (acc ++ a :: rest) := List.perm_middle.symm
    exact (h1.trans h2).trans h3

theorem sortDescBy_perm {α β : Type} [LinearOrder β] (key : α → β) (l : List α) :
    (sortDescBy key l).Perm l := by
  simpa using sortDescBy_foldl_perm key l []

/-! ## String helpers

`String.prototype.toLowerCase`, `trim` and `split(/\s+/)` are modelled
character-wise so that they compute by structural recursion. -/

/-- `text.toLowerCase()`. -/
def jsToLower (s : String) : String := String.mk (s.data.map Char.toLower)

/-- `text.trim()`: strip whitespace from both ends. -/
def jsTrim (s : String) : String :=
  String.mk (((s.data.dropWhile Char.isWhitespace).reverse.dropWhile
    Char.isWhitespace).reverse)

/-- Maximal non-whitespace runs of a character list, accumulating the
current run reversed in `cur`. -/
def wsRuns (cur : List Char) : List Char → List String
  | [] => if cur = [] then [] else [String.mk cur.reverse]
  | c :: rest =>
    if c.isWhitespace then
      if cur = [] then wsRuns [] rest
      else String.mk cur.reverse :: wsRuns [] rest
    else wsRuns (c :: cur) rest

/-- `text.split(/\s+/)`: the non-whitespace runs, plus a leading empty
string when the text starts with whitespace (or is empty) and a
trailing empty string when it ends with whitespace. -/
def jsSplitWs (s : String) : List String :=
  (if s.data.head?.all Char.isWhitespace then [""] else []) ++
    wsRuns [] s.data ++
    (if s ≠ "" ∧ s.data.getLast?.any Char.isWhitespace then [""] else [])

/-! ## Data model (`src/types.ts`) -/

/-- Conversational role of a `ChatMessage`. -/
inductive Role where
  | system
  | user
  | assistant
deriving DecidableEq

/-- The `role` strings used when serializing a message as
`"role: content"`. -/
def roleName : Role → String
  | .system => "system"
  | .user => "user"
  | .assistant => "assistant"

/-- `ChatMessage`: role, content, optional timestamp (ms). -/
structure ChatMessage where
  role : Role
  content : String
  timestamp : Option ℤ := none
deriving DecidableEq

/-- `ChunkMetadata`: per-chunk transient record built by the chunk
prioritizer (`index`, `text`, synthetic `timestamp`, `relevanceScore`,
optional `embedding`). -/
structure ChunkMeta where
  index : ℕ
  text : String
  timestamp : ℤ
  relevanceScore : ℚ := 0
  embedding : Option Emb := none

/-- `MessageMetadata`: the chat prioritizer's transient record; it
additionally tracks `role` and `originalIndex`. -/
structure ChatMeta where
  index : ℕ
  originalIndex : ℕ
  text : String
  role : Role
  timestamp : ℤ
  relevanceScore : ℚ := 0
  embedding : Option Emb := none

/-! ## Deduplication (`src/dedupe.ts`, `src/chatDedupe.ts`) -/

/-- Phase-1 key: `chunk.trim().toLowerCase()`. -/
def normalizeChunk (s : String) : String := jsToLower (jsTrim s)

/-- Phase 1 of `deduplicate`: drop every chunk whose normalized text
was already seen, keeping first occurrences (`uniqueChunks` set plus
`textDedupedChunks` array in the source). -/
def textDedupeAux (seen : List String) : List String → List String
  | [] => []
  | c :: rest =>
    if seen.contains (normalizeChunk c) then textDedupeAux seen rest
    else c :: textDedupeAux (normalizeChunk c :: seen) rest

def textDedupe (chunks : List String) : List String := textDedupeAux [] chunks

theorem textDedupeAux_sublist (seen : List String) (l : List String) :
    (textDedupeAux seen l).Sublist l := by
  induction l generalizing seen with
  | nil => exact List.Sublist.refl _
  | cons c rest ih =>
    unfold textDedupeAux
    by_cases h : seen.contains (normalizeChunk c)
    · rw [if_pos h]
      exact (ih seen).cons c
    · rw [if_neg h]
      exact (ih _).cons₂ c

theorem textDedupe_sublist (chunks : List String) :
    (textDedupe chunks).Sublist chunks := textDedupeAux_sublist [] chunks

/-- The greedy semantic scan shared by `deduplicate` (phase 2) and
`deduplicateMessages` (per-role scan): walk the items in order keeping
a running list (`processedEmbeddings`/`semanticUnique`); an item is
discarded iff its similarity to some previously kept embedding reaches
the threshold. -/
def semanticDedupeAux (sqrtQ : ℚ → ℚ) (t : ℚ) {α : Type}
    (kept : List (α × Emb)) : List (α × Emb) → List (α × Emb)
  | [] => kept
  | p :: rest =>
    if kept.any (fun q => t ≤ cosineSimilarity sqrtQ p.2 q.2) then
      semanticDedupeAux sqrtQ t kept rest
    else semanticDedupeAux sqrtQ t (kept ++ [p]) rest

def semanticDedupe (sqrtQ : ℚ → ℚ) (t : ℚ) {α : Type}
    (l : List (α × Emb)) : List (α × Emb) :=
  semanticDedupeAux sqrtQ t [] l

theorem semanticDedupeAux_pairwise (sqrtQ : ℚ → ℚ) (t : ℚ) {α : Type}
    (l kept : List (α × Emb))
    (hk : kept.Pairwise (fun p q => cosineSimilarity sqrtQ p.2 q.2 < t)) :
    (semanticDedupeAux sqrtQ t kept l).Pairwise
      (fun p q => cosineSimilarity sqrtQ p.2 q.2 < t) := by
  induction l generalizing kept with
  | nil => exact hk
  | cons p rest ih =>
    unfold semanticDedupeAux
    by_cases h : kept.any (fun q => t ≤ cosineSimilarity sqrtQ p.2 q.2)
    · rw [if_pos h]
      exact ih kept hk
    · rw [if_neg h]
      refine ih (kept ++ [p]) ?_
      rw [List.pairwise_append]
      refine ⟨hk, List.pairwise_singleton _ p, ?_⟩
      intro a ha b hb
      rw [List.mem_singleton] at hb
      subst hb
      rw [List.any_eq_true] at h
      push_neg at h
      have ha2 := h a ha
      rw [ne_eq, decide_eq_true_iff] at ha2
      rw [cosineSimilarity_comm]
      exact lt_of_not_le ha2

theorem semanticDedupeAux_append (sqrtQ : ℚ → ℚ) (t : ℚ) {α : Type}
    (l kept : List (α × Emb)) :
    ∃ s, (semanticDedupeAux sqrtQ t kept l) = kept ++ s ∧ s.Sublist l := by
  induction l generalizing kept with
  | nil => exact ⟨[], by simp [semanticDedupeAux]⟩
  | cons p rest ih =>
    unfold semanticDedupeAux
    by_cases h : kept.any (fun q => t ≤ cosineSimilarity sqrtQ p.2 q.2)
    · rw [if_pos h]
      obtain ⟨s, hs, hsub⟩ := ih kept
      exact ⟨s, hs, hsub.cons p⟩
    · rw [if_neg h]
      obtain ⟨s, hs, hsub⟩ := ih (kept ++ [p])
      exact ⟨p :: s, by simpa using hs, hsub.cons₂ p⟩

theorem semanticDedupe_pairwise (sqrtQ : ℚ → ℚ) (t : ℚ) {α : Type}
    (l : List (α × Emb)) :
    (semanticDedupe sqrtQ t l).Pairwise
      (fun p q => cosineSimilarity sqrtQ p.2 q.2 < t) :=
  semanticDedupeAux_pairwise sqrtQ t l [] (List.Pairwise.nil)

theorem semanticDedupe_sublist (sqrtQ : ℚ → ℚ) (t : ℚ) {α : Type}
    (l : List (α × Emb)) : (semanticDedupe sqrtQ t l).Sublist l := by
  obtain ⟨s, hs, hsub⟩ := semanticDedupeAux_append sqrtQ t l []
  rw [semanticDedupe, hs]
  simpa using hsub

/-- `deduplicate(chunks, embeddingProvider?, semanticThreshold = 0.9)`
from `src/dedupe.ts`, as the value the returned promise resolves to.
Phase 1 always runs; phase 2 is skipped when no provider is supplied or
at most one chunk survives phase 1, and the surrounding `try`/`catch`
turns any gateway rejection (and the length-mismatch `TypeError` that
an undersized batch would cause inside the loop) into the phase-1
fallback result. -/
def dedupePhase2 (sqrtQ : ℚ → ℚ) (prov : Provider) (t : ℚ)
    (td : List String) : List String :=
  if td.length ≤ 1 then td
  else
    match prov td with
    | .error _ => td
    | .ok embs =>
      if embs.length = td.length then
        (semanticDedupe sqrtQ t (td.zip embs)).map Prod.fst
      else td

def deduplicateRun (sqrtQ : ℚ → ℚ) (provider : Option Provider)
    (chunks : List String) (t : ℚ) : List String :=
  if chunks.isEmpty then []
  else
    match provider with
    | none => textDedupe chunks
    | some prov => dedupePhase2 sqrtQ prov t (textDedupe chunks)

/-- `deduplicate` as the caller sees the promise: it resolves on every
input (every rejection is caught inside), so it is `.ok` always. -/
def deduplicate (sqrtQ : ℚ → ℚ) (provider : Option Provider)
    (chunks : List String) (t : ℚ) : Except OptError (List String) :=
  .ok (deduplicateRun sqrtQ provider chunks t)

theorem dedupePhase2_sublist (sqrtQ : ℚ → ℚ) (prov : Provider) (t : ℚ)
    (td : List String) : (dedupePhase2 sqrtQ prov t td).Sublist td := by
  unfold dedupePhase2
  by_cases h1 : td.length ≤ 1
  · rw [if_pos h1]
  · rw [if_neg h1]
    split
    · exact List.Sublist.refl td
    · rename_i embs hembs
      by_cases hlen : embs.length = td.length
      · rw [if_pos hlen]
        have h2 := (semanticDedupe_sublist sqrtQ t (td.zip embs)).map Prod.fst
        rw [List.map_fst_zip _ _ (le_of_eq hlen.symm)] at h2
        exact h2
      · rw [if_neg hlen]

theorem deduplicateRun_sublist (sqrtQ : ℚ → ℚ) (provider : Option Provider)
    (chunks : List String) (t : ℚ) :
    (deduplicateRun sqrtQ provider chunks t).Sublist chunks := by
  unfold deduplicateRun
  by_cases he : chunks.isEmpty
  · rw [if_pos he]
    exact List.nil_sublist chunks
  · rw [if_neg he]
    cases provider with
    | none => exact textDedupe_sublist chunks
    | some prov =>
      exact (dedupePhase2_sublist sqrtQ prov t (textDedupe chunks)).trans
        (textDedupe_sublist chunks)

/-! ### Chat deduplication (`src/chatDedupe.ts`) -/

/-- One iteration of the per-role loop in `deduplicateMessages`: an
empty or single-message role is passed through without an embedding
call; otherwise the role's contents are embedded in one batch (a
rejection propagates) and the greedy scan runs.  A batch of the wrong
size would make the scan read an `undefined` embedding and throw; that
is modelled as a gateway error. -/
def dedupeRole (sqrtQ : ℚ → ℚ) (prov : Provider) (t : ℚ)
    (roleMessages : List ChatMessage) : Except OptError (List ChatMessage) :=
  if roleMessages.length ≤ 1 then .ok roleMessages
  else
    match prov (roleMessages.map (·.content)) with
    | .error e => .error (.gateway e)
    | .ok embs =>
      if embs.length = roleMessages.length then
        .ok ((semanticDedupe sqrtQ t (roleMessages.zip embs)).map Prod.fst)
      else .error (.gateway "embedding batch size mismatch")

/-- `deduplicateMessages(messages, embeddingProvider, semanticThreshold
= 0.9)` from `src/chatDedupe.ts`: empty input short-circuits before the
provider check; a missing provider throws; a single message is returned
unchanged; otherwise the messages are partitioned by role (system, then
user, then assistant), each role is deduplicated independently, and the
kept set is re-expressed as a filter of the original list by content
membership, restoring the original global order. -/
def deduplicateMessages (sqrtQ : ℚ → ℚ) (provider : Option Provider)
    (messages : List ChatMessage) (t : ℚ) :
    Except OptError (List ChatMessage) :=
  if messages.isEmpty then .ok []
  else
    match provider with
    | none => .error .providerRequired
    | some prov =>
      if messages.length ≤ 1 then .ok messages
      else do
        let sys ← dedupeRole sqrtQ prov t
          (messages.filter (fun m => decide (m.role = .system)))
        let usr ← dedupeRole sqrtQ prov t
          (messages.filter (fun m => decide (m.role = .user)))
        let asst ← dedupeRole sqrtQ prov t
          (messages.filter (fun m => decide (m.role = .assistant)))
        let kept := (sys ++ usr ++ asst).map (·.content)
        .ok (messages.filter (fun m => kept.contains m.content))

theorem deduplicateMessages_sublist (sqrtQ : ℚ → ℚ)
    (provider : Option Provider) (messages : List ChatMessage) (t : ℚ)
    (out : List ChatMessage)
    (h : deduplicateMessages sqrtQ provider messages t = .ok out) :
    out.Sublist messages := by
  unfold deduplicateMessages at h
  split at h
  · cases h
    exact List.nil_sublist messages
  · split at h
    · cases h
    · rename_i prov
      split at h
      · cases h
        exact List.Sublist.refl _
      · simp only [bind, Except.bind] at h
        split at h
        · cases h
        · split at h
          · cases h
          · split at h
            · cases h
            · cases h
              exact List.filter_sublist messages

/-! ## Prioritization (`src/prioritizer.ts`) -/

/-- The synthetic recency timestamp assigned to item `i` of `n` when no
real timestamp exists: `new Date(Date.now() - (n - index) * 60000)`. -/
def syntheticTimestamp (now : ℤ) (n i : ℕ) : ℤ :=
  now - ((n : ℤ) - (i : ℤ)) * 60000

/-- `recencyScore = Math.max(0, 1 - ageMs / 86400000)`: linear decay to
0 over 24 hours, never negative. -/
def recencyScore (now ts : ℤ) : ℚ :=
  max 0 (1 - ((now - ts : ℤ) : ℚ) / 86400000)

/-- Keyword relevance: the fraction of the prompt's whitespace-split
lowercased words that occur among the chunk's words. -/
def keywordRelevance (chunkText userPrompt : String) : ℚ :=
  let promptWords := jsSplitWs (jsToLower userPrompt)
  let chunkWords := jsSplitWs (jsToLower chunkText)
  ((promptWords.countP (fun w => chunkWords.contains w) : ℕ) : ℚ) /
    (promptWords.length : ℚ)

/-- `chunks.map((text, index) => ({index, text, timestamp: ...}))`. -/
def buildChunkMeta (now : ℤ) (n : ℕ) : ℕ → List String → List ChunkMeta
  | _, [] => []
  | i, text :: rest =>
    { index := i, text := text, timestamp := syntheticTimestamp now n i } ::
      buildChunkMeta now n (i + 1) rest

/-- `chunks.map((chunk, index) => ({...chunk, embedding:
chunkEmbeddings[index]}))`: indexing past the end of the batch yields
`undefined`, i.e. `none`. -/
def attachEmbeddings : List ChunkMeta → List Emb → List ChunkMeta
  | [], _ => []
  | m :: ms, [] => { m with embedding := none } :: attachEmbeddings ms []
  | m :: ms, e :: es => { m with embedding := some e } :: attachEmbeddings ms es

/-- `prioritizeByRecency`: stable sort descending by timestamp. -/
def prioritizeByRecency (meta : List ChunkMeta) : List String :=
  (sortDescBy (fun m => m.timestamp) meta).map (fun m => m.text)

/-- `prioritizeByKeywordRelevance`: score then stable sort descending. -/
def prioritizeByKeywordRelevance (meta : List ChunkMeta)
    (userPrompt : String) : List String :=
  (sortDescBy (fun m => m.relevanceScore)
    (meta.map (fun m =>
      { m with relevanceScore := keywordRelevance m.text userPrompt }))).map
    (fun m => m.text)

/-- `prioritizeKeywordHybrid`: `0.7 * relevance + 0.3 * recency`. -/
def prioritizeKeywordHybrid (now : ℤ) (meta : List ChunkMeta)
    (userPrompt : String) : List String :=
  (sortDescBy (fun m => m.relevanceScore)
    (meta.map (fun m =>
      { m with relevanceScore :=
          keywordRelevance m.text userPrompt * (7 / 10) +
            recencyScore now m.timestamp * (3 / 10) }))).map (fun m => m.text)

/-- The keyword-based strategy switch (both the no-provider path of
`prioritize` and the `catch` fallback of `prioritizeWithEmbeddings`);
an unrecognized or absent strategy selects hybrid. -/
def keywordPrioritize (now : ℤ) (meta : List ChunkMeta)
    (userPrompt strategy : String) : List String :=
  match strategy with
  | "recency" => prioritizeByRecency meta
  | "relevance" => prioritizeByKeywordRelevance meta userPrompt
  | _ => prioritizeKeywordHybrid now meta userPrompt

/-- Semantic relevance of one chunk: cosine similarity against the
prompt embedding, or 0 when the chunk has no embedding. -/
def semanticRelevance (sqrtQ : ℚ → ℚ) (promptEmb : Emb)
    (m : ChunkMeta) : ℚ :=
  match m.embedding with
  | none => 0
  | some e => cosineSimilarity sqrtQ promptEmb e

/-- `prioritizeBySemanticRelevance`. -/
def prioritizeBySemanticRelevance (sqrtQ : ℚ → ℚ) (promptEmb : Emb)
    (meta : List ChunkMeta) : List String :=
  (sortDescBy (fun m => m.relevanceScore)
    (meta.map (fun m =>
      { m with relevanceScore := semanticRelevance sqrtQ promptEmb m }))).map
    (fun m => m.text)

/-- `prioritizeSemanticHybrid`: `0.7 * relevance + 0.3 * recency`. -/
def prioritizeSemanticHybrid (sqrtQ : ℚ → ℚ) (promptEmb : Emb) (now : ℤ)
    (meta : List ChunkMeta) : List String :=
  (sortDescBy (fun m => m.relevanceScore)
    (meta.map (fun m =>
      { m with relevanceScore :=
          semanticRelevance sqrtQ promptEmb m * (7 / 10) +
            recencyScore now m.timestamp * (3 / 10) }))).map (fun m => m.text)

/-- The strategy switch inside `prioritizeWithEmbeddings`. -/
def semanticPrioritize (sqrtQ : ℚ → ℚ) (promptEmb : Emb) (now : ℤ)
    (meta : List ChunkMeta) (strategy : String) : List String :=
  match strategy with
  | "recency" => prioritizeByRecency meta
  | "relevance" => prioritizeBySemanticRelevance sqrtQ promptEmb meta
  | _ => prioritizeSemanticHybrid sqrtQ promptEmb now meta

/-- `prioritize(chunks, userPrompt, strategy = "hybrid",
embeddingProvider?)` from `src/prioritizer.ts`, as the value the
returned promise resolves to.  With a provider, one batch
`[userPrompt, ...chunks]` is requested; index 0 is the prompt
embedding and the rest align to chunks.  A gateway rejection is caught
by `prioritizeWithEmbeddings` and falls back to the keyword strategies;
without a provider the keyword strategies run directly. -/
def prioritizeRun (sqrtQ : ℚ → ℚ) (now : ℤ) (provider : Option Provider)
    (chunks : List String) (userPrompt strategy : String) : List String :=
  if chunks.isEmpty then []
  else
    match provider with
    | none =>
      keywordPrioritize now (buildChunkMeta now chunks.length 0 chunks)
        userPrompt strategy
    | some prov =>
      match prov (userPrompt :: chunks) with
      | .error _ =>
        keywordPrioritize now (buildChunkMeta now chunks.length 0 chunks)
          userPrompt strategy
      | .ok embs =>
        semanticPrioritize sqrtQ (embs.headD []) now
          (attachEmbeddings (buildChunkMeta now chunks.length 0 chunks)
            embs.tail) strategy

/-- `prioritize` as the caller sees the promise: every rejection is
caught inside, so it resolves on every input. -/
def prioritize (sqrtQ : ℚ → ℚ) (now : ℤ) (provider : Option Provider)
    (chunks : List String) (userPrompt strategy : String) :
    Except OptError (List String) :=
  .ok (prioritizeRun sqrtQ now provider chunks userPrompt strategy)

theorem buildChunkMeta_map_text (now : ℤ) (n : ℕ) (i : ℕ)
    (l : List String) :
    (buildChunkMeta now n i l).map (fun m => m.text) = l := by
  induction l generalizing i with
  | nil => rfl
  | cons text rest ih =>
    simp [buildChunkMeta, ih]

theorem attachEmbeddings_map_text (meta : List ChunkMeta) (embs : List Emb) :
    (attachEmbeddings meta embs).map (fun m => m.text) =
      meta.map (fun m => m.text) := by
  induction meta generalizing embs with
  | nil => rfl
  | cons m ms ih =>
    cases embs with
    | nil => simp [attachEmbeddings, ih]
    | cons e es => simp [attachEmbeddings, ih]

theorem sortMapText_perm {β : Type} [LinearOrder β] (key : ChunkMeta → β)
    (meta : List ChunkMeta) :
    ((sortDescBy key meta).map (fun m => m.text)).Perm
      (meta.map (fun m => m.text)) :=
  (sortDescBy_perm key meta).map (fun m => m.text)

theorem scoreSortMapText_perm {β : Type} [LinearOrder β]
    (key : ChunkMeta → β) (g : ChunkMeta → ChunkMeta)
    (hg : ∀ m, (g m).text = m.text) (meta : List ChunkMeta) :
    ((sortDescBy key (meta.map g)).map (fun m => m.text)).Perm
      (meta.map (fun m => m.text)) := by
  have h1 := sortMapText_perm key (meta.map g)
  have h2 : (meta.map g).map (fun m => m.text) = meta.map (fun m => m.text) := by
    rw [List.map_map]
    exact List.map_congr_left (fun m _ => hg m)
  rw [h2] at h1
  exact h1

theorem keywordPrioritize_perm (now : ℤ) (meta : List ChunkMeta)
    (userPrompt strategy : String) :
    (keywordPrioritize now meta userPrompt strategy).Perm
      (meta.map (fun m => m.text)) := by
  unfold keywordPrioritize
  split
  · exact sortMapText_perm _ meta
  · unfold prioritizeByKeywordRelevance
    exact scoreSortMapText_perm (fun m => m.relevanceScore)
      (fun m => { m with relevanceScore :=
        (keywordRelevance m.text userPrompt) }) (fun m => rfl) meta
  · unfold prioritizeKeywordHybrid
    exact scoreSortMapText_perm (fun m => m.relevanceScore)
      (fun m => { m with relevanceScore :=
        (keywordRelevance m.text userPrompt * (7 / 10) +
          recencyScore now m.timestamp * (3 / 10)) }) (fun m => rfl) meta

theorem semanticPrioritize_perm (sqrtQ : ℚ → ℚ) (promptEmb : Emb) (now : ℤ)
    (meta : List ChunkMeta) (strategy : String) :
    (semanticPrioritize sqrtQ promptEmb now meta strategy).Perm
      (meta.map (fun m => m.text)) := by
  unfold semanticPrioritize
  split
  · exact sortMapText_perm _ meta
  · unfold prioritizeBySemanticRelevance
    exact scoreSortMapText_perm (fun m => m.relevanceScore)
      (fun m => { m with relevanceScore :=
        (semanticRelevance sqrtQ promptEmb m) }) (fun m => rfl) meta
  · unfold prioritizeSemanticHybrid
    exact scoreSortMapText_perm (fun m => m.relevanceScore)
      (fun m => { m with relevanceScore :=
        (semanticRelevance sqrtQ promptEmb m * (7 / 10) +
          recencyScore now m.timestamp * (3 / 10)) }) (fun m => rfl) meta

theorem prioritizeRun_perm (sqrtQ : ℚ → ℚ) (now : ℤ)
    (provider : Option Provider) (chunks : List String)
    (userPrompt strategy : String) :
    (prioritizeRun sqrtQ now provider chunks userPrompt strategy).Perm
      chunks := by
  unfold prioritizeRun
  by_cases he : chunks.isEmpty
  · rw [if_pos he]
    rw [List.isEmpty_iff] at he
    rw [he]
  · rw [if_neg he]
    have hb := buildChunkMeta_map_text now chunks.length 0 chunks
    split
    · have := keywordPrioritize_perm now
        (buildChunkMeta now chunks.length 0 chunks) userPrompt strategy
      rwa [hb] at this
    · rename_i prov
      split
      · have := keywordPrioritize_perm now
          (buildChunkMeta now chunks.length 0 chunks) userPrompt strategy
        rwa [hb] at this
      · rename_i embs hembs
        have := semanticPrioritize_perm sqrtQ (embs.headD []) now
          (attachEmbeddings (buildChunkMeta now chunks.length 0 chunks)
            embs.tail) strategy
        rwa [attachEmbeddings_map_text, hb] at this

/-! ## Chat prioritization (`src/chatPrioritizer.ts`) -/

/-- `getRoleImportanceScore`: system 1.0, user 0.8, assistant 0.6.
(The source's `default: 0.5` arm is unreachable: the `role` union type
has exactly these three members.) -/
def roleScore : Role → ℚ
  | .system => 1
  | .user => 8 / 10
  | .assistant => 6 / 10

/-- `messages.map((msg, index) => ({index, text: msg.content, role,
originalIndex: index, timestamp: msg.timestamp || synthetic}))`. -/
def buildChatMeta (now : ℤ) (n : ℕ) : ℕ → List ChatMessage → List ChatMeta
  | _, [] => []
  | i, m :: rest =>
    { index := i, originalIndex := i, text := m.content, role := m.role,
      timestamp := m.timestamp.getD (syntheticTimestamp now n i) } ::
      buildChatMeta now n (i + 1) rest

/-- `metadata.map((meta, index) => ({...meta, embedding:
messageEmbeddings[index]}))`. -/
def attachChatEmbeddings : List ChatMeta → List Emb → List ChatMeta
  | [], _ => []
  | m :: ms, [] => { m with embedding := none } :: attachChatEmbeddings ms []
  | m :: ms, e :: es =>
    { m with embedding := some e } :: attachChatEmbeddings ms es

/-- Semantic relevance of one message against the query embedding. -/
def chatRelevance (sqrtQ : ℚ → ℚ) (queryEmb : Emb) (m : ChatMeta) : ℚ :=
  match m.embedding with
  | none => 0
  | some e => cosineSimilarity sqrtQ queryEmb e

/-- `prioritizeSemanticHybridForChat`'s four-factor score:
`0.4 * relevance + 0.2 * recency + 0.3 * position + 0.1 * role`, with
`positionScore = (originalIndex + 1) / messages.length`. -/
def chatHybridScore (sqrtQ : ℚ → ℚ) (queryEmb : Emb) (now : ℤ) (n : ℕ)
    (m : ChatMeta) : ℚ :=
  chatRelevance sqrtQ queryEmb m * (4 / 10) +
    recencyScore now m.timestamp * (2 / 10) +
    (((m.originalIndex : ℚ) + 1) / (n : ℚ)) * (3 / 10) +
    roleScore m.role * (1 / 10)

/-- The strategy switch of `prioritizeChatMessages`, producing the
reordered metadata. -/
def chatDispatch (sqrtQ : ℚ → ℚ) (queryEmb : Emb) (now : ℤ) (n : ℕ)
    (meta : List ChatMeta) (strategy : String) : List ChatMeta :=
  match strategy with
  | "recency" => sortDescBy (fun m => m.timestamp) meta
  | "relevance" =>
    sortDescBy (fun m => m.relevanceScore)
      (meta.map (fun m =>
        { m with relevanceScore := chatRelevance sqrtQ queryEmb m }))
  | _ =>
    sortDescBy (fun m => m.relevanceScore)
      (meta.map (fun m =>
        { m with relevanceScore := chatHybridScore sqrtQ queryEmb now n m }))

/-- Stand-in for the (unreachable) out-of-range indexing
`messages[meta.originalIndex]`. -/
def dummyMessage : ChatMessage := { role := .system, content := "" }

/-- `prioritizeChatMessages(messages, queryText, strategy = "hybrid",
embeddingProvider)` from `src/chatPrioritizer.ts`: empty input
short-circuits; a missing provider throws; otherwise one batch
`[queryText, ...contents]` is embedded (a rejection propagates — there
is no catch here) and the chosen strategy reorders the metadata, which
is mapped back to the original message objects through
`originalIndex`. -/
def prioritizeChatMessages (sqrtQ : ℚ → ℚ) (now : ℤ)
    (provider : Option Provider) (messages : List ChatMessage)
    (queryText strategy : String) : Except OptError (List ChatMessage) :=
  if messages.isEmpty then .ok []
  else
    match provider with
    | none => .error .providerRequired
    | some prov =>
      match prov (queryText :: messages.map (·.content)) with
      | .error e => .error (.gateway e)
      | .ok embs =>
        .ok ((chatDispatch sqrtQ (embs.headD []) now messages.length
          (attachChatEmbeddings (buildChatMeta now messages.length 0 messages)
            embs.tail) strategy).map
          (fun md => messages.getD md.originalIndex dummyMessage))

theorem buildChatMeta_map_back (now : ℤ) (n : ℕ) (d : ChatMessage)
    (pre rest : List ChatMessage) :
    (buildChatMeta now n pre.length rest).map
      (fun md => (pre ++ rest).getD md.originalIndex d) = rest := by
  induction rest generalizing pre with
  | nil => rfl
  | cons m rest ih =>
    unfold buildChatMeta
    simp only [List.map_cons]
    have hhead : (pre ++ m :: rest).getD pre.length d = m := by
      rw [List.getD_eq_getElem?_getD, List.getElem?_append_right (le_refl _)]
      simp
    have htail := ih (pre ++ [m])
    rw [List.length_append, List.length_singleton] at htail
    rw [List.append_assoc, List.singleton_append] at htail
    exact congrArg₂ (· :: ·) hhead htail

theorem attachChatEmbeddings_map_back (meta : List ChatMeta)
    (embs : List Emb) (f : ChatMeta → ChatMessage)
    (hf : ∀ m e, f { m with embedding := e } = f m) :
    (attachChatEmbeddings meta embs).map f = meta.map f := by
  induction meta generalizing embs with
  | nil => rfl
  | cons m ms ih =>
    cases embs with
    | nil => simp [attachChatEmbeddings, ih, hf]
    | cons e es => simp [attachChatEmbeddings, ih, hf]

theorem chatDispatch_map_perm (sqrtQ : ℚ → ℚ) (queryEmb : Emb) (now : ℤ)
    (n : ℕ) (meta : List ChatMeta) (strategy : String)
    (f : ChatMeta → ChatMessage)
    (hf : ∀ m q, f { m with relevanceScore := q } = f m) :
    ((chatDispatch sqrtQ queryEmb now n meta strategy).map f).Perm
      (meta.map f) := by
  unfold chatDispatch
  split
  · exact (sortDescBy_perm _ meta).map f
  · have h1 := (sortDescBy_perm (fun m => m.relevanceScore)
      (meta.map (fun m =>
        { m with relevanceScore := chatRelevance sqrtQ queryEmb m }))).map f
    rw [List.map_map] at h1
    have h2 : (f ∘ fun m =>
        { m with relevanceScore := chatRelevance sqrtQ queryEmb m }) =
        fun m => f m := funext (fun m => hf m _)
    rw [h2] at h1
    simpa using h1
  · have h1 := (sortDescBy_perm (fun m => m.relevanceScore)
      (meta.map (fun m =>
        { m with relevanceScore := chatHybridScore sqrtQ queryEmb now n m }))).map f
    rw [List.map_map] at h1
    have h2 : (f ∘ fun m =>
        { m with relevanceScore := chatHybridScore sqrtQ queryEmb now n m }) =
        fun m => f m := funext (fun m => hf m _)
    rw [h2] at h1
    simpa using h1

theorem prioritizeChatMessages_perm (sqrtQ : ℚ → ℚ) (now : ℤ)
    (provider : Option Provider) (messages : List ChatMessage)
    (queryText strategy : String) (out : List ChatMessage)
    (h : prioritizeChatMessages sqrtQ now provider messages queryText
      strategy = .ok out) : out.Perm messages := by
  unfold prioritizeChatMessages at h
  split at h
  · cases h
    rename_i he
    rw [List.isEmpty_iff] at he
    rw [he]
  · split at h
    · cases h
    · split at h
      · cases h
      · rename_i prov embs hembs
        cases h
        have hperm := chatDispatch_map_perm sqrtQ (embs.headD []) now
          messages.length
          (attachChatEmbeddings (buildChatMeta now messages.length 0 messages)
            embs.tail) strategy
          (fun md => messages.getD md.originalIndex dummyMessage)
          (fun m q => rfl)
        rw [attachChatEmbeddings_map_back _ _
          (fun md => messages.getD md.originalIndex dummyMessage)
          (fun m e => rfl)] at hperm
        have hback := buildChatMeta_map_back now messages.length dummyMessage
          [] messages
        rw [List.length_nil, List.nil_append] at hback
        rwa [hback] at hperm

/-! ## Budget trimming and compression
(`src/optimizer.ts` step 4, `src/chatOptimizer.ts` step 4,
`src/compressor.ts`) -/

/-- Chunk serialization: `chunks.join("\n")`. -/
def joinChunks (chunks : List String) : String :=
  String.intercalate "\n" chunks

/-- Message serialization:
`messages.map(m => role + ": " + m.content).join("\n")`. -/
def serializeMessages (msgs : List ChatMessage) : String :=
  String.intercalate "\n"
    (msgs.map (fun m => roleName m.role ++ ": " ++ m.content))

/-- The final trimming loop shared by both orchestrators:
`while (tokens > budget && items.length > 0) { items.pop();
re-serialize; re-estimate }`. -/
def trimToBudget {α : Type} (serialize : List α → String) (budget : ℤ)
    (items : List α) : List α :=
  if _h : budget < (countTokens (serialize items) : ℤ) ∧ 0 < items.length then
    trimToBudget serialize budget items.dropLast
  else items
termination_by items.length
decreasing_by
  rw [List.length_dropLast]
  omega

/-- The `while (tokens > maxTokens && result.length > 1)` loop of
`compress` in `src/compressor.ts` (it always keeps at least one
chunk). -/
def compressLoop (maxTokens : ℤ) (chunks : List String) : List String :=
  if _h : maxTokens < (countTokens (joinChunks chunks) : ℤ) ∧
      1 < chunks.length then
    compressLoop maxTokens chunks.dropLast
  else chunks
termination_by chunks.length
decreasing_by
  rw [List.length_dropLast]
  omega

/-- `compress(chunks, maxTokens, embedder?)` from `src/compressor.ts`
as the value its promise resolves to (the early `tokens <= maxTokens`
return coincides with the loop's exit condition). -/
def compressRun (chunks : List String) (maxTokens : ℤ) : List String :=
  if chunks.isEmpty then [] else compressLoop maxTokens chunks

theorem trimToBudget_fits {α : Type} (serialize : List α → String)
    (budget : ℤ) (items : List α) :
    (countTokens (serialize (trimToBudget serialize budget items)) : ℤ) ≤
      budget ∨ trimToBudget serialize budget items = [] := by
  generalize hn : items.length = n
  induction n using Nat.strong_induction_on generalizing items with
  | _ n ih =>
    by_cases h : budget < (countTokens (serialize items) : ℤ) ∧
        0 < items.length
    · rw [trimToBudget, dif_pos h]
      exact ih items.dropLast.length
        (by rw [← hn, List.length_dropLast]; omega) items.dropLast rfl
    · rw [trimToBudget, dif_neg h]
      rcases eq_or_ne items [] with he | he
      · exact Or.inr he
      · rw [not_and_or] at h
        rcases h with h | h
        · exact Or.inl (le_of_not_lt h)
        · exact absurd (List.length_pos.mpr he) h

theorem trimToBudget_noop {α : Type} (serialize : List α → String)
    (budget : ℤ) (items : List α)
    (h : (countTokens (serialize items) : ℤ) ≤ budget) :
    trimToBudget serialize budget items = items := by
  rw [trimToBudget, dif_neg]
  intro hc
  exact absurd h (not_le_of_lt hc.1)

theorem dropLast_front {α : Type} (l : List α) : l.dropLast <+: l :=
  List.dropLast_prefix l

theorem trimToBudget_front {α : Type} (serialize : List α → String)
    (budget : ℤ) (items : List α) :
    trimToBudget serialize budget items <+: items := by
  generalize hn : items.length = n
  induction n using Nat.strong_induction_on generalizing items with
  | _ n ih =>
    by_cases h : budget < (countTokens (serialize items) : ℤ) ∧
        0 < items.length
    · rw [trimToBudget, dif_pos h]
      exact (ih items.dropLast.length
        (by rw [← hn, List.length_dropLast]; omega) items.dropLast rfl).trans
        (dropLast_front items)
    · rw [trimToBudget, dif_neg h]

/-! ## Chunk-flavor orchestrator (`src/optimizer.ts`) -/

/-- `OptimizeOptions` from `src/types.ts`.  `provider` models the
result of `createEmbeddingProvider(opts.openaiApiKey, ...)`: `none`
when no API key is supplied (the constructor returns `null`), `some`
gateway otherwise.  Optional fields keep their source defaults:
`dedupe !== false` is on by default, `compress` off, `strategy`
falsy (replaced by `"hybrid"` at use sites), `semanticThreshold`
`undefined` (defaulted to 0.9 by `deduplicate`). -/
structure OptimizeOptions where
  userPrompt : String
  context : List String
  maxTokens : ℤ
  provider : Option Provider := none
  dedupe : Bool := true
  compress : Bool := false
  strategy : String := ""
  semanticThreshold : Option ℚ := none

/-- `OptimizeResult` from `src/types.ts`. -/
structure OptimizeResult where
  finalPrompt : String
  tokenCount : ℕ
  droppedChunks : List String
deriving DecidableEq

/-- `opts.strategy || "hybrid"`: a falsy (empty/absent) strategy string
selects the default. -/
def jsOrHybrid (s : String) : String := if s = "" then "hybrid" else s

/-- Steps 1-4 of `optimizePrompt` after validation succeeds: optional
dedup, prioritization, optional compression, tail trimming against
`max(0, maxTokens - promptTokens - 10)`, final prompt assembly and the
dropped-chunk manifest by content set-difference. -/
def optimizeBody (sqrtQ : ℚ → ℚ) (now : ℤ) (opts : OptimizeOptions)
    (prov : Provider) : OptimizeResult :=
  let original := opts.context
  let chunks1 := if opts.dedupe then
    deduplicateRun sqrtQ (some prov) original
      (opts.semanticThreshold.getD (9 / 10)) else original
  let chunks2 := prioritizeRun sqrtQ now (some prov) chunks1 opts.userPrompt
    (jsOrHybrid opts.strategy)
  let avail : ℤ := max 0 (opts.maxTokens - (countTokens opts.userPrompt : ℤ) - 10)
  let chunks3 := if avail < (countTokens (joinChunks chunks2) : ℤ) ∧
      opts.compress then compressRun chunks2 avail else chunks2
  let chunks4 := trimToBudget joinChunks avail chunks3
  let ctx := joinChunks chunks4
  let finalPrompt := if ctx = "" then opts.userPrompt
    else opts.userPrompt ++ "\n\n" ++ ctx
  { finalPrompt := finalPrompt
    tokenCount := countTokens finalPrompt
    droppedChunks := original.filter (fun c => !(chunks4.contains c)) }

/-- `optimizePrompt(opts)` from `src/optimizer.ts`.  Validation order
follows the source exactly: a falsy `userPrompt` throws first; an empty
context short-circuits to the query alone *before* the budget check; a
non-positive `maxTokens` throws next; a missing provider throws
last. -/
def optimizePrompt (sqrtQ : ℚ → ℚ) (now : ℤ) (opts : OptimizeOptions) :
    Except OptError OptimizeResult :=
  if opts.userPrompt = "" then .error .emptyQuery
  else if opts.context.isEmpty then
    .ok { finalPrompt := opts.userPrompt
          tokenCount := countTokens opts.userPrompt
          droppedChunks := [] }
  else if opts.maxTokens ≤ 0 then .error .invalidBudget
  else
    match opts.provider with
    | none => .error .embeddingUnavailable
    | some prov => .ok (optimizeBody sqrtQ now opts prov)

/-! ## Chat-flavor orchestrator (`src/chatOptimizer.ts`) -/

/-- `ChatOptimizeOptions` from `src/types.ts` (the fields the
orchestrator reads). -/
structure ChatOptimizeOptions where
  messages : List ChatMessage
  maxTokens : ℤ
  provider : Option Provider := none
  dedupe : Bool := true
  strategy : String := ""
  semanticThreshold : Option ℚ := none
  preserveSystemMessage : Bool := true
  preserveLastNMessages : ℕ := 0

/-- `ChatOptimizeResult` from `src/types.ts` (the fields the
orchestrator produces). -/
structure ChatOptimizeResult where
  optimizedMessages : List ChatMessage
  tokenCount : ℕ
  removedMessages : List ChatMessage
deriving DecidableEq

/-- Step 1a: all system messages, when preservation is enabled
(`opts.preserveSystemMessage !== false`). -/
def systemPreserved (opts : ChatOptimizeOptions) : List ChatMessage :=
  if opts.preserveSystemMessage then
    opts.messages.filter (fun m => decide (m.role = Role.system))
  else []

/-- The working set after system extraction. -/
def nonSystemWorking (opts : ChatOptimizeOptions) : List ChatMessage :=
  if opts.preserveSystemMessage then
    opts.messages.filter (fun m => !decide (m.role = Role.system))
  else opts.messages

/-- Step 1b: `workingMessages.slice(-N)` when `preserveLastNMessages`
is a positive number. -/
def lastNPreserved (opts : ChatOptimizeOptions) : List ChatMessage :=
  if 0 < opts.preserveLastNMessages then
    (nonSystemWorking opts).drop
      ((nonSystemWorking opts).length - opts.preserveLastNMessages)
  else []

/-- The working set after both preservation steps
(`workingMessages.slice(0, -N)`). -/
def chatWorking (opts : ChatOptimizeOptions) : List ChatMessage :=
  if 0 < opts.preserveLastNMessages then
    (nonSystemWorking opts).take
      ((nonSystemWorking opts).length - opts.preserveLastNMessages)
  else nonSystemWorking opts

/-- Preserved messages: system messages first, then the last-N slice. -/
def chatPreserved (opts : ChatOptimizeOptions) : List ChatMessage :=
  systemPreserved opts ++ lastNPreserved opts

/-- The query for chat prioritization: content of the most recent
user message, or the empty string. -/
def lastUserQuery (messages : List ChatMessage) : String :=
  ((messages.reverse.find? (fun m => decide (m.role = Role.user))).map
    (fun m => m.content)).getD ""

/-! `optimizeChatHistory(opts)` from `src/chatOptimizer.ts`: empty
message list returns a zeroed result (not an error); a non-positive
budget throws; a missing provider throws; then system/last-N messages
are preserved, and if `max(0, maxTokens - preservedTokens - 50) ≤ 0`
only the preserved messages are returned with the working set reported
as removed.  Otherwise the working set is deduplicated (if enabled)
and prioritized — either can propagate a gateway error and abort the
whole call — then tail-trimmed into the remaining budget, and the
result is preserved ++ optimized-working with the removed manifest
computed by content set-difference against the original list. -/

/-- `availableTokensForOptimization = max(0, maxTokens -
preservedTokens - 50)`. -/
def chatAvail (opts : ChatOptimizeOptions) : ℤ :=
  max 0 (opts.maxTokens -
    (countTokens (serializeMessages (chatPreserved opts)) : ℤ) - 50)

/-- Step 5 of `optimizeChatHistory`: trim the optimized working set
into the remaining budget, prepend the preserved messages, and compute
the removed manifest by content set-difference against the original
list. -/
def chatFinalize (opts : ChatOptimizeOptions) (w2 : List ChatMessage) :
    ChatOptimizeResult :=
  { optimizedMessages :=
      chatPreserved opts ++ trimToBudget serializeMessages (chatAvail opts) w2
    tokenCount := countTokens (serializeMessages
      (chatPreserved opts ++ trimToBudget serializeMessages (chatAvail opts) w2))
    removedMessages := opts.messages.filter (fun m =>
      !(((chatPreserved opts ++
            trimToBudget serializeMessages (chatAvail opts) w2).map
          (fun x => x.content)).contains m.content)) }

def optimizeChatHistory (sqrtQ : ℚ → ℚ) (now : ℤ)
    (opts : ChatOptimizeOptions) : Except OptError ChatOptimizeResult :=
  if opts.messages.isEmpty then
    .ok { optimizedMessages := [], tokenCount := 0, removedMessages := [] }
  else if opts.maxTokens ≤ 0 then .error .invalidBudget
  else
    match opts.provider with
    | none => .error .embeddingUnavailable
    | some prov =>
      if chatAvail opts ≤ 0 then
        .ok { optimizedMessages := chatPreserved opts
              tokenCount := countTokens (serializeMessages (chatPreserved opts))
              removedMessages := chatWorking opts }
      else
        Except.bind
          (if opts.dedupe ∧ 0 < (chatWorking opts).length then
            deduplicateMessages sqrtQ (some prov) (chatWorking opts)
              (opts.semanticThreshold.getD (9 / 10))
          else .ok (chatWorking opts)) (fun w1 =>
        Except.bind
          (if 0 < w1.length then
            prioritizeChatMessages sqrtQ now (some prov) w1
              (lastUserQuery opts.messages) (jsOrHybrid opts.strategy)
          else .ok w1) (fun w2 =>
        .ok (chatFinalize opts w2)))

/-! ## Concrete instances used to instantiate the theorems below -/

/-- A concrete square-root stand-in (only its values at 0 matter in the
concrete instances below, and every deployed `Math.sqrt` satisfies
`sqrt 0 = 0`). -/
def sqrtSample : ℚ → ℚ := fun q => q

/-- A gateway stand-in returning the empty vector for every text (a
degenerate but shape-correct batch: same length and order as the
input). -/
def provEmpty : Provider := fun ts => .ok (ts.map (fun _ => []))

/-- A gateway stand-in whose batch call always rejects. -/
def provFail : Provider := fun _ => .error "boom"

deriving instance DecidableEq for Except

/-- The greedy scan keeps a short list unchanged (at most one element
means the running kept list is empty at the only comparison point). -/
theorem semanticDedupe_short (sqrtQ : ℚ → ℚ) (t : ℚ) {α : Type}
    (l : List (α × Emb)) (h : l.length ≤ 1) :
    semanticDedupe sqrtQ t l = l := by
  match l with
  | [] => rfl
  | [p] => rfl
  | p :: q :: rest => simp at h

/-! ## Claim theorems -/

/-- C1 (counterexample): the claim "the output has no two retained
items more similar than the threshold" fails on
`deduplicateMessages`.  Two user messages with identical content get
identical embeddings from the gateway (similarity at or above any
threshold ≤ the self-similarity; here the batch returns the degenerate
empty vector, whose self-similarity is 0, and the threshold is 0).
The greedy per-role scan does discard the second message, but the
final "restore original order" filter keeps every original message
whose content is in the kept set — which resurrects the discarded
duplicate, so both messages are retained at similarity ≥ threshold. -/
theorem c1_counterexample :
    deduplicateMessages sqrtSample (some provEmpty)
      [⟨Role.user, "hi", none⟩, ⟨Role.user, "hi", none⟩] 0 =
      .ok [⟨Role.user, "hi", none⟩, ⟨Role.user, "hi", none⟩] ∧
    (0 : ℚ) ≤ cosineSimilarity sqrtSample [] [] :=
  ⟨by decide, by decide⟩

/-- C1 (amended): the greedy semantic scan itself guarantees that
every pair of items it keeps is strictly below the threshold (for any
square-root stand-in, because cosine similarity is symmetric), and the
chunk-flavor `deduplicate` output is exactly the scan's output on the
text-deduplicated list zipped with its embedding batch — so the
pairwise guarantee holds for `deduplicate`.  The chat flavor violates
it only through the content-membership restore filter
(`c1_counterexample`). -/
theorem c1_greedy_pairwise (sqrtQ : ℚ → ℚ) :
    (∀ (t : ℚ) {α : Type} (l : List (α × Emb)),
      (semanticDedupe sqrtQ t l).Pairwise
        (fun p q => cosineSimilarity sqrtQ p.2 q.2 < t)) ∧
    (∀ (prov : Provider) (chunks : List String) (t : ℚ) (embs : List Emb),
      prov (textDedupe chunks) = .ok embs →
      embs.length = (textDedupe chunks).length →
      deduplicate sqrtQ (some prov) chunks t =
        .ok ((semanticDedupe sqrtQ t
          ((textDedupe chunks).zip embs)).map Prod.fst)) := by
  refine ⟨fun t α l => semanticDedupe_pairwise sqrtQ t l, ?_⟩
  intro prov chunks t embs hok hlen
  simp only [deduplicate, deduplicateRun, dedupePhase2, Except.ok.injEq]
  by_cases hemp : chunks.isEmpty
  · rw [if_pos hemp]
    rw [List.isEmpty_iff] at hemp
    subst hemp
    rfl
  · rw [if_neg hemp]
    by_cases h1 : (textDedupe chunks).length ≤ 1
    · rw [if_pos h1,
        semanticDedupe_short sqrtQ t _ (by rw [List.length_zip]; omega),
        List.map_fst_zip _ _ (le_of_eq hlen.symm)]
    · rw [if_neg h1]
      simp only [hok]
      rw [if_pos hlen]

/-- C1 (witness): the amended theorem instantiated at a concrete
one-chunk input with a concrete gateway. -/
theorem c1_witness :
    deduplicate sqrtSample (some (fun _ => .ok [[]])) ["a"] 0 =
      .ok ((semanticDedupe sqrtSample 0
        ((textDedupe ["a"]).zip [[]])).map Prod.fst) ∧
    (semanticDedupe sqrtSample 0 [(("a" : String), ([] : Emb))]).Pairwise
      (fun p q => cosineSimilarity sqrtSample p.2 q.2 < 0) :=
  ⟨(c1_greedy_pairwise sqrtSample).2 (fun _ => .ok [[]]) ["a"] 0 [[]]
      rfl (by decide),
    (c1_greedy_pairwise sqrtSample).1 0 [(("a" : String), ([] : Emb))]⟩

/-- C2 (counterexample): with a gateway whose batch call always
rejects, `deduplicate` resolves to the text-based fallback and
`prioritize` resolves to the keyword-based fallback ordering (here the
recency reversal), instead of failing with the provider's error. -/
theorem c2_counterexample :
    deduplicate sqrtSample (some provFail) ["alpha", "beta"] 0 =
      .ok ["alpha", "beta"] ∧
    prioritize sqrtSample 0 (some provFail) ["alpha", "beta"] "q" "recency" =
      .ok ["beta", "alpha"] :=
  ⟨by decide, by decide⟩

/-- C2 (amended): when the embedding gateway call fails, the
chunk-flavor `deduplicate` catches the rejection and resolves to the
phase-1 text-deduplicated list, and the chunk-flavor `prioritize`
catches it and resolves to exactly what the no-provider keyword path
returns; neither propagates the provider's error.  (The chat-flavor
functions do propagate it; see the theorems for C5/C6 where the
`.error` case is visible in their types.) -/
theorem c2_gateway_fallback :
    (∀ (sqrtQ : ℚ → ℚ) (prov : Provider) (chunks : List String) (t : ℚ)
      (e : String), prov (textDedupe chunks) = .error e →
      deduplicate sqrtQ (some prov) chunks t = .ok (textDedupe chunks)) ∧
    (∀ (sqrtQ : ℚ → ℚ) (now : ℤ) (prov : Provider) (chunks : List String)
      (userPrompt strategy : String) (e : String),
      prov (userPrompt :: chunks) = .error e →
      prioritize sqrtQ now (some prov) chunks userPrompt strategy =
        prioritize sqrtQ now none chunks userPrompt strategy) := by
  constructor
  · intro sqrtQ prov chunks t e he
    simp only [deduplicate, deduplicateRun, dedupePhase2, Except.ok.injEq]
    by_cases hemp : chunks.isEmpty
    · rw [if_pos hemp]
      rw [List.isEmpty_iff] at hemp
      subst hemp
      rfl
    · rw [if_neg hemp]
      by_cases h1 : (textDedupe chunks).length ≤ 1
      · rw [if_pos h1]
      · rw [if_neg h1]
        simp only [he]
  · intro sqrtQ now prov chunks userPrompt strategy e he
    simp only [prioritize, prioritizeRun, Except.ok.injEq]
    by_cases hemp : chunks.isEmpty
    · rw [if_pos hemp, if_pos hemp]
    · rw [if_neg hemp, if_neg hemp]
      simp only [he]

/-- C2 (witness): the amended theorem instantiated with the concrete
always-failing gateway. -/
theorem c2_witness :
    deduplicate sqrtSample (some provFail) ["x", "y"] 0 =
      .ok (textDedupe ["x", "y"]) ∧
    prioritize sqrtSample 0 (some provFail) ["x", "y"] "p" "hybrid" =
      prioritize sqrtSample 0 none ["x", "y"] "p" "hybrid" :=
  ⟨c2_gateway_fallback.1 sqrtSample provFail ["x", "y"] 0 "boom" rfl,
    c2_gateway_fallback.2 sqrtSample 0 provFail ["x", "y"] "p" "hybrid"
      "boom" rfl⟩

/-- C3 (counterexample): with no embedding source supplied, the
chunk-flavor `deduplicate` succeeds with the text-based result and the
chunk-flavor `prioritize` succeeds with the keyword-based fallback
ordering — neither fails with `EmbeddingProviderRequired`. -/
theorem c3_counterexample :
    deduplicate sqrtSample none ["gamma", "delta"] 0 =
      .ok ["gamma", "delta"] ∧
    prioritize sqrtSample 0 none ["gamma", "delta"] "q" "recency" =
      .ok ["delta", "gamma"] :=
  ⟨by decide, by decide⟩

/-- C3 (amended): only the chat-flavor operations fail with
`EmbeddingProviderRequired` on a missing embedding source (for
non-empty input — empty input short-circuits first); the chunk-flavor
`deduplicate` falls back to text-based deduplication and the
chunk-flavor `prioritize` falls back to the keyword strategies. -/
theorem c3_no_provider :
    (∀ (sqrtQ : ℚ → ℚ) (messages : List ChatMessage) (t : ℚ),
      messages ≠ [] →
      deduplicateMessages sqrtQ none messages t = .error .providerRequired) ∧
    (∀ (sqrtQ : ℚ → ℚ) (now : ℤ) (messages : List ChatMessage)
      (queryText strategy : String), messages ≠ [] →
      prioritizeChatMessages sqrtQ now none messages queryText strategy =
        .error .providerRequired) ∧
    (∀ (sqrtQ : ℚ → ℚ) (chunks : List String) (t : ℚ),
      deduplicate sqrtQ none chunks t = .ok (textDedupe chunks)) ∧
    (∀ (sqrtQ : ℚ → ℚ) (now : ℤ) (chunks : List String)
      (userPrompt strategy : String),
      prioritize sqrtQ now none chunks userPrompt strategy =
        .ok (if chunks.isEmpty then []
          else keywordPrioritize now (buildChunkMeta now chunks.length 0 chunks)
            userPrompt strategy)) := by
  refine ⟨?_, ?_, ?_, ?_⟩
  · intro sqrtQ messages t hne
    simp only [deduplicateMessages]
    rw [if_neg (fun hc => hne (List.isEmpty_iff.mp hc))]
  · intro sqrtQ now messages queryText strategy hne
    simp only [prioritizeChatMessages]
    rw [if_neg (fun hc => hne (List.isEmpty_iff.mp hc))]
  · intro sqrtQ chunks t
    simp only [deduplicate, deduplicateRun, Except.ok.injEq]
    by_cases hemp : chunks.isEmpty
    · rw [if_pos hemp]
      rw [List.isEmpty_iff] at hemp
      subst hemp
      rfl
    · rw [if_neg hemp]
  · intro sqrtQ now chunks userPrompt strategy
    simp only [prioritize, prioritizeRun]

/-- C3 (witness): the amended theorem instantiated at concrete
inputs. -/
theorem c3_witness :
    deduplicateMessages sqrtSample none [⟨Role.user, "w", none⟩] 0 =
      .error .providerRequired ∧
    prioritizeChatMessages sqrtSample 0 none [⟨Role.user, "w", none⟩]
      "q" "hybrid" = .error .providerRequired ∧
    deduplicate sqrtSample none ["m"] 0 = .ok (textDedupe ["m"]) ∧
    prioritize sqrtSample 0 none ["m"] "p" "x" =
      .ok (if (["m"] : List String).isEmpty then []
        else keywordPrioritize 0 (buildChunkMeta 0 1 0 ["m"]) "p" "x") :=
  ⟨c3_no_provider.1 sqrtSample [⟨Role.user, "w", none⟩] 0 (by decide),
    c3_no_provider.2.1 sqrtSample 0 [⟨Role.user, "w", none⟩] "q" "hybrid"
      (by decide),
    c3_no_provider.2.2.1 sqrtSample ["m"] 0,
    c3_no_provider.2.2.2 sqrtSample 0 ["m"] "p" "x"⟩

/-- C4: the budget trimmer's result either fits the budget or is empty;
a list whose serialization already fits is returned unchanged; and the
result is a front segment of the input (only tail items are removed, in
order, from the end).  Termination is built into the definition of
`trimToBudget`: each iteration drops the last element, so the length
strictly decreases. -/
theorem c4_trimmer {α : Type} (serialize : List α → String) (budget : ℤ)
    (items : List α) :
    ((countTokens (serialize (trimToBudget serialize budget items)) : ℤ) ≤
        budget ∨ trimToBudget serialize budget items = []) ∧
    ((countTokens (serialize items) : ℤ) ≤ budget →
      trimToBudget serialize budget items = items) ∧
    trimToBudget serialize budget items <+: items :=
  ⟨trimToBudget_fits serialize budget items,
    fun h => trimToBudget_noop serialize budget items h,
    trimToBudget_front serialize budget items⟩

/-- C4 (witness): the trimmer theorem instantiated at a fitting
concrete input. -/
theorem c4_witness :
    trimToBudget joinChunks 5 ["ab"] = ["ab"] ∧
    trimToBudget joinChunks 5 ["ab"] <+: ["ab"] :=
  ⟨(c4_trimmer joinChunks 5 ["ab"]).2.1 (by decide),
    (c4_trimmer joinChunks 5 ["ab"]).2.2⟩

/-- C5: prioritization never drops items — whenever the chunk-flavor
`prioritize` or the chat-flavor `prioritizeChatMessages` resolves, the
result is a permutation of the input (same multiset, hence same
length).  The chunk flavor resolves on every input; the chat flavor can
reject on a gateway failure, in which case no list is returned at
all. -/
theorem c5_permutation :
    (∀ (sqrtQ : ℚ → ℚ) (now : ℤ) (provider : Option Provider)
      (chunks : List String) (userPrompt strategy : String)
      (out : List String),
      prioritize sqrtQ now provider chunks userPrompt strategy = .ok out →
      out.Perm chunks) ∧
    (∀ (sqrtQ : ℚ → ℚ) (now : ℤ) (provider : Option Provider)
      (messages : List ChatMessage) (queryText strategy : String)
      (out : List ChatMessage),
      prioritizeChatMessages sqrtQ now provider messages queryText
        strategy = .ok out → out.Perm messages) := by
  constructor
  · intro sqrtQ now provider chunks userPrompt strategy out h
    simp only [prioritize, Except.ok.injEq] at h
    rw [← h]
    exact prioritizeRun_perm sqrtQ now provider chunks userPrompt strategy
  · exact fun sqrtQ now provider messages queryText strategy out h =>
      prioritizeChatMessages_perm sqrtQ now provider messages queryText
        strategy out h

/-- C5 (witness): both parts instantiated at concrete inputs (the
chunk part with the keyword recency fallback, which reverses the two
chunks; the chat part with a one-message list through the full semantic
path). -/
theorem c5_witness :
    (["v", "u"] : List String).Perm ["u", "v"] ∧
    ([⟨Role.user, "hi", none⟩] : List ChatMessage).Perm
      [⟨Role.user, "hi", none⟩] :=
  ⟨c5_permutation.1 sqrtSample 0 none ["u", "v"] "p" "recency" ["v", "u"]
      (by decide),
    c5_permutation.2 sqrtSample 0 (some provEmpty) [⟨Role.user, "hi", none⟩]
      "q" "recency" [⟨Role.user, "hi", none⟩] (by decide)⟩

/-- C6: whenever deduplication resolves, its output is a subsequence of
the input in the input's original relative order (for the chat flavor
this is precisely the final filter of the original list by kept
content, i.e. original global input order, not category-concatenation
order), and its length is at most the input length. -/
theorem c6_subsequence :
    (∀ (sqrtQ : ℚ → ℚ) (provider : Option Provider) (chunks : List String)
      (t : ℚ) (out : List String),
      deduplicate sqrtQ provider chunks t = .ok out →
      out.Sublist chunks ∧ out.length ≤ chunks.length) ∧
    (∀ (sqrtQ : ℚ → ℚ) (provider : Option Provider)
      (messages : List ChatMessage) (t : ℚ) (out : List ChatMessage),
      deduplicateMessages sqrtQ provider messages t = .ok out →
      out.Sublist messages ∧ out.length ≤ messages.length) := by
  constructor
  · intro sqrtQ provider chunks t out h
    simp only [deduplicate, Except.ok.injEq] at h
    rw [← h]
    have hs := deduplicateRun_sublist sqrtQ provider chunks t
    exact ⟨hs, hs.length_le⟩
  · intro sqrtQ provider messages t out h
    have hs := deduplicateMessages_sublist sqrtQ provider messages t out h
    exact ⟨hs, hs.length_le⟩

/-- C6 (witness): both parts instantiated at concrete inputs (the
chunk part actually removes an exact duplicate). -/
theorem c6_witness :
    ((["a"] : List String).Sublist ["a", "a"] ∧
      (["a"] : List String).length ≤ (["a", "a"] : List String).length) ∧
    (([⟨Role.user, "hi", none⟩] : List ChatMessage).Sublist
        [⟨Role.user, "hi", none⟩] ∧
      ([⟨Role.user, "hi", none⟩] : List ChatMessage).length ≤
        ([⟨Role.user, "hi", none⟩] : List ChatMessage).length) :=
  ⟨c6_subsequence.1 sqrtSample none ["a", "a"] 0 ["a"] (by decide),
    c6_subsequence.2 sqrtSample (some provEmpty) [⟨Role.user, "hi", none⟩]
      0 [⟨Role.user, "hi", none⟩] (by decide)⟩

/-- C7 (counterexample): with a non-empty query, an empty context and a
*negative* budget, `optimizePrompt` does not fail with `InvalidBudget`:
the empty-context short-circuit runs before the budget validation and
returns the query alone. -/
theorem c7_counterexample :
    optimizePrompt sqrtSample 0
      { userPrompt := "hi", context := [], maxTokens := -5 } =
      .ok { finalPrompt := "hi", tokenCount := 2, droppedChunks := [] } :=
  by decide

/-- C7 (amended): an empty query always fails with `EmptyQuery`; a
non-positive budget fails with `InvalidBudget` only when the query is
non-empty *and* the context is non-empty; with a non-empty query and an
empty context the short-circuit returns the query alone even when the
budget is non-positive, because it runs before the budget check. -/
theorem c7_validation (sqrtQ : ℚ → ℚ) (now : ℤ) (opts : OptimizeOptions) :
    (opts.userPrompt = "" →
      optimizePrompt sqrtQ now opts = .error .emptyQuery) ∧
    (opts.userPrompt ≠ "" → opts.context ≠ [] → opts.maxTokens ≤ 0 →
      optimizePrompt sqrtQ now opts = .error .invalidBudget) ∧
    (opts.userPrompt ≠ "" → opts.context = [] →
      optimizePrompt sqrtQ now opts =
        .ok { finalPrompt := opts.userPrompt
              tokenCount := countTokens opts.userPrompt
              droppedChunks := [] }) := by
  refine ⟨?_, ?_, ?_⟩
  · intro h
    simp only [optimizePrompt]
    rw [if_pos h]
  · intro h1 h2 h3
    simp only [optimizePrompt]
    rw [if_neg h1, if_neg (fun hc => h2 (List.isEmpty_iff.mp hc)), if_pos h3]
  · intro h1 h2
    simp only [optimizePrompt]
    rw [if_neg h1, if_pos (by rw [h2]; rfl)]

/-- C7 (witness): the three validation branches at concrete inputs. -/
theorem c7_witness :
    optimizePrompt sqrtSample 0
      { userPrompt := "", context := ["c"], maxTokens := 5 } =
      .error .emptyQuery ∧
    optimizePrompt sqrtSample 0
      { userPrompt := "q", context := ["c"], maxTokens := 0 } =
      .error .invalidBudget ∧
    optimizePrompt sqrtSample 0
      { userPrompt := "q", context := [], maxTokens := 0 } =
      .ok { finalPrompt := "q", tokenCount := countTokens "q"
            droppedChunks := [] } :=
  ⟨(c7_validation sqrtSample 0 _).1 rfl,
    (c7_validation sqrtSample 0 _).2.1 (by decide) (by decide) (by decide),
    (c7_validation sqrtSample 0 _).2.2 (by decide) rfl⟩

/-- The recency score of a timestamp exactly one minute in the past:
`max(0, 1 - 60000/86400000) = 1439/1440`, strictly below 1. -/
theorem recencyScore_minuteAgo (now : ℤ) :
    recencyScore now (now - 60000) = 1439 / 1440 := by
  unfold recencyScore
  rw [show now - (now - 60000) = (60000 : ℤ) from by ring]
  rw [show ((60000 : ℤ) : ℚ) = 60000 from by norm_num]
  rw [show (1 : ℚ) - 60000 / 86400000 = 1439 / 1440 from by norm_num]
  exact max_eq_right (by norm_num)

/-- The synthetic timestamp of the last of `n` items is one minute
before `now`. -/
theorem syntheticTimestamp_last (now : ℤ) (n : ℕ) (hn : 1 ≤ n) :
    syntheticTimestamp now n (n - 1) = now - 60000 := by
  simp only [syntheticTimestamp]
  omega

/-- C8 (counterexample): with a single item (`n = 1`, index 0), the
synthetic timestamp is `now - 60000`, not `now`, and its recency score
at `now` is `1439/1440`, not 1. -/
theorem c8_counterexample :
    syntheticTimestamp 0 1 0 ≠ 0 ∧
    recencyScore 0 (syntheticTimestamp 0 1 0) ≠ 1 := by
  have h0 : syntheticTimestamp 0 1 0 = 0 - 60000 := by decide
  constructor
  · rw [h0]
    decide
  · rw [h0, recencyScore_minuteAgo 0]
    norm_num

/-- C8 (amended): the synthetic timestamps assigned by the
prioritizers (`buildChunkMeta` uses `syntheticTimestamp`, and the last
conjunct states exactly which timestamps it assigns) are strictly
monotonically increasing by index and spaced exactly one minute
(60000 ms) apart, but the *last* item's timestamp is `now - 60000` —
one minute before now — so its recency score is `1439/1440`, slightly
below 1, not 1. -/
theorem c8_synthetic_recency :
    (∀ (now : ℤ) (n i j : ℕ), i < j →
      syntheticTimestamp now n i < syntheticTimestamp now n j) ∧
    (∀ (now : ℤ) (n i : ℕ),
      syntheticTimestamp now n (i + 1) - syntheticTimestamp now n i =
        60000) ∧
    (∀ (now : ℤ) (n : ℕ), 1 ≤ n →
      syntheticTimestamp now n (n - 1) = now - 60000) ∧
    (∀ (now : ℤ) (n : ℕ), 1 ≤ n →
      recencyScore now (syntheticTimestamp now n (n - 1)) = 1439 / 1440) ∧
    (∀ (now : ℤ) (n i : ℕ) (l : List String),
      (buildChunkMeta now n i l).map (fun m => m.timestamp) =
        (List.range l.length).map (fun k => syntheticTimestamp now n (i + k))) := by
  refine ⟨?_, ?_, ?_, ?_, ?_⟩
  · intro now n i j hij
    simp only [syntheticTimestamp]
    omega
  · intro now n i
    simp only [syntheticTimestamp]
    omega
  · exact syntheticTimestamp_last
  · intro now n hn
    rw [syntheticTimestamp_last now n hn]
    exact recencyScore_minuteAgo now
  · intro now n i l
    induction l generalizing i with
    | nil => rfl
    | cons text rest ih =>
      simp only [buildChunkMeta, List.map_cons, List.length_cons,
        List.range_succ_eq_map, List.map_map]
      refine congrArg₂ (· :: ·) (by rw [Nat.add_zero]) ?_
      rw [ih (i + 1)]
      apply List.map_congr_left
      intro k _
      simp only [Function.comp_apply]
      congr 1
      omega

/-- C8 (witness): the amended theorem instantiated at concrete
indices. -/
theorem c8_witness :
    syntheticTimestamp 5 3 0 < syntheticTimestamp 5 3 2 ∧
    syntheticTimestamp 5 3 (0 + 1) - syntheticTimestamp 5 3 0 = 60000 ∧
    syntheticTimestamp 5 3 (3 - 1) = 5 - 60000 ∧
    recencyScore 5 (syntheticTimestamp 5 3 (3 - 1)) = 1439 / 1440 :=
  ⟨c8_synthetic_recency.1 5 3 0 2 (by decide),
    c8_synthetic_recency.2.1 5 3 0,
    c8_synthetic_recency.2.2.1 5 3 (by decide),
    c8_synthetic_recency.2.2.2.1 5 3 (by decide)⟩

/-- C9: with `preserveSystemMessage` enabled, every system message of
the input appears in the optimized output of `optimizeChatHistory`,
whenever the call resolves — on the preserved-only early return and on
the main path alike, for any budget. -/
theorem c9_system_preserved (sqrtQ : ℚ → ℚ) (now : ℤ)
    (opts : ChatOptimizeOptions) (out : ChatOptimizeResult)
    (m : ChatMessage) (hpres : opts.preserveSystemMessage = true)
    (hok : optimizeChatHistory sqrtQ now opts = .ok out)
    (hm : m ∈ opts.messages) (hrole : m.role = Role.system) :
    m ∈ out.optimizedMessages := by
  have hmem : m ∈ chatPreserved opts := by
    unfold chatPreserved systemPreserved
    rw [hpres]
    refine List.mem_append_left _ ?_
    rw [if_pos rfl]
    exact List.mem_filter.mpr ⟨hm, by simp [hrole]⟩
  unfold optimizeChatHistory at hok
  split at hok
  · rename_i hempty
    rw [List.isEmpty_iff] at hempty
    rw [hempty] at hm
    cases hm
  · split at hok
    · cases hok
    · split at hok
      · cases hok
      · rename_i prov
        split at hok
        · cases hok
          exact hmem
        · simp only [Except.bind] at hok
          split at hok
          · cases hok
          · split at hok
            · cases hok
            · cases hok
              exact List.mem_append_left _ hmem

/-- C9 (witness): the theorem instantiated at a concrete call whose
tight budget triggers the preserved-only early return. -/
theorem c9_witness :
    (⟨Role.system, "Be brief.", none⟩ : ChatMessage) ∈
      ({ optimizedMessages := [⟨Role.system, "Be brief.", none⟩],
         tokenCount := 6,
         removedMessages := [⟨Role.user, "hello", none⟩] } :
        ChatOptimizeResult).optimizedMessages :=
  c9_system_preserved sqrtSample 0
    { messages := [⟨Role.system, "Be brief.", none⟩,
        ⟨Role.user, "hello", none⟩],
      maxTokens := 1, provider := some provEmpty }
    _ _ rfl (by decide) (by decide) rfl

/-- C10: a concrete call with a positive budget (`maxTokens = 1`)
whose preserved system message alone costs 7 estimated tokens: the
returned `tokenCount` is 7, strictly greater than the budget — the
preserved messages are returned anyway and their full token count is
reported, so the result is not guaranteed to fit the budget. -/
theorem c10_preserved_exceed_budget :
    optimizeChatHistory sqrtSample 0
      { messages := [⟨Role.system, "You are helpful.", none⟩,
          ⟨Role.user, "Hi there, how are you?", none⟩],
        maxTokens := 1, provider := some provEmpty } =
      .ok { optimizedMessages := [⟨Role.system, "You are helpful.", none⟩],
            tokenCount := 7,
            removedMessages := [⟨Role.user, "Hi there, how are you?", none⟩] } ∧
    (1 : ℤ) < ((7 : ℕ) : ℤ) :=
  ⟨by decide, by decide⟩

end PromptOpt
